import Mathlib

/-!
Verification of the CSVWriter module (src/CSVWriter.h) of DRAMSim2.

The C++ header defines three free functions building indexed statistic
names (indexStr with one, two or three unsigned indices) and the class
CSVWriter, a stateful wrapper around an output stream that captures field
names until the first finalize call commits the header, and thereafter
streams comma-separated values.

Shallow embedding conventions:
- The output stream (ostream and its accumulated characters) is modelled
  as a String holding every character written to the sink, plus a flush
  counter (std::endl and std::flush each flush the stream).
- The diagnostic channel (printf to stdout, distinct from the data sink)
  is modelled as a list of emitted warning messages.
- A numeric value inserted through one of the ADD_TYPE operators is
  modelled by the text the stream would render for it: the operators all
  expand to the same body, which forwards the rendering to the stream
  unchanged, so only the rendered text matters to the writer.
- indexStr returns Except String String: Except.error msg models the
  fatal path (ERROR report followed by abort or exit, terminating the
  process), Except.ok s models a successful strndup return.
- snprintf with buffer size MAX_TMP_STR writes at most MAX_TMP_STR - 1
  characters plus a terminator; this truncation is modelled by cTruncate.
-/

namespace DRAMSim

/-- MAX_TMP_STR from the source: capacity of the fixed snprintf buffer. -/
def MAX_TMP_STR : Nat := 64

/-- SINGLE_INDEX_LEN from the source: assumed length of one subscript. -/
def SINGLE_INDEX_LEN : Nat := 4

/-- Truncation performed by snprintf into a buffer of size cap: at most
cap - 1 characters are kept. -/
def cTruncate (s : String) (cap : Nat) : String :=
  String.mk (s.toList.take (cap - 1))

/-- Diagnostic message of the fatal path in indexStr (the ERROR macro). -/
def tooLongMsg : String :=
  "Your string is too long for the stats, increase MAX_TMP_STR"

/-- indexStr with a single index (source lines 79-89): checks
strlen(baseName) + SINGLE_INDEX_LEN > MAX_TMP_STR, aborts on overflow,
otherwise formats base[i] through snprintf and returns a copy. -/
def indexStr1 (baseName : String) (channel : Nat) : Except String String :=
  if baseName.length + SINGLE_INDEX_LEN > MAX_TMP_STR then
    Except.error tooLongMsg
  else
    Except.ok (cTruncate (baseName ++ "[" ++ toString channel ++ "]") MAX_TMP_STR)

/-- indexStr with two indices (source lines 92-102). -/
def indexStr2 (baseName : String) (channel rank : Nat) : Except String String :=
  if baseName.length + 2 * SINGLE_INDEX_LEN > MAX_TMP_STR then
    Except.error tooLongMsg
  else
    Except.ok (cTruncate
      (baseName ++ "[" ++ toString channel ++ "]" ++ "[" ++ toString rank ++ "]")
      MAX_TMP_STR)

/-- indexStr with three indices (source lines 105-115); the fatal path
calls exit(-1) instead of abort, both terminating the process. -/
def indexStr3 (baseName : String) (channel rank bank : Nat) : Except String String :=
  if baseName.length + 3 * SINGLE_INDEX_LEN > MAX_TMP_STR then
    Except.error tooLongMsg
  else
    Except.ok (cTruncate
      (baseName ++ "[" ++ toString channel ++ "]" ++ "[" ++ toString rank ++ "]"
        ++ "[" ++ toString bank ++ "]")
      MAX_TMP_STR)

/-- State of a CSVWriter (source lines 117-123) together with the
observable history of its collaborators: the characters written to the
output stream, the number of flushes, and the diagnostic messages. -/
structure CSVWriter where
  fieldNames : List String
  finalized : Bool
  idx : Nat
  output : String
  flushCount : Nat
  diag : List String
  deriving DecidableEq

namespace CSVWriter

/-- The constructor (source lines 150-151): finalized = false, idx = 0,
bound to a sink to which nothing has been written yet. -/
def new : CSVWriter :=
  { fieldNames := [], finalized := false, idx := 0
    output := "", flushCount := 0, diag := [] }

/-- Warning printed by finalize when idx < fieldNames.size()
(source line 142; the printf renders idx and then the field count). -/
def mismatchMsg (i n : Nat) : String :=
  " Number of fields " ++ "does not match values (fields=" ++ toString i
    ++ ", values=" ++ toString n
    ++ "), check each value has a field name before it\n"

/-- finalize (source lines 126-147). First call: writes each captured
field name followed by a comma, then std::endl and std::flush, and sets
finalized. Later calls: warns on the diagnostic channel when
idx < fieldNames.size(), resets idx and writes std::endl. -/
def finalize (w : CSVWriter) : CSVWriter :=
  if w.finalized = false then
    { w with
      output := (w.fieldNames.foldl (fun acc n => acc ++ n ++ ",") w.output) ++ "\n"
      flushCount := w.flushCount + 2
      finalized := true }
  else
    { w with
      diag :=
        if w.idx < w.fieldNames.length then
          w.diag ++ [mismatchMsg w.idx w.fieldNames.length]
        else w.diag
      idx := 0
      output := w.output ++ "\n"
      flushCount := w.flushCount + 1 }

/-- operator<< for const char* and for string (source lines 154-170):
both append the name while not finalized and are no-ops afterwards. -/
def insertName (w : CSVWriter) (name : String) : CSVWriter :=
  if w.finalized = false then
    { w with fieldNames := w.fieldNames ++ [name] }
  else w

/-- The ADD_TYPE operators (source lines 176-192): once finalized, write
the rendering of the value followed by a comma and increment idx; before
that, do nothing. The argument value is the text the stream renders for
the inserted number. -/
def insertValue (w : CSVWriter) (value : String) : CSVWriter :=
  if w.finalized = true then
    { w with output := w.output ++ value ++ ",", idx := w.idx + 1 }
  else w

end CSVWriter

/-- One interaction with the writer: a field-name insertion, a value
insertion (carrying the rendered text), or a finalize call. -/
inductive Op where
  | name (s : String)
  | val (s : String)
  | close
  deriving DecidableEq

/-- Interpretation of one interaction. -/
def CSVWriter.step (w : CSVWriter) : Op → CSVWriter
  | Op.name s => w.insertName s
  | Op.val s => w.insertValue s
  | Op.close => w.finalize

/-- Interpretation of a sequence of interactions. -/
def CSVWriter.run (w : CSVWriter) (ops : List Op) : CSVWriter :=
  ops.foldl CSVWriter.step w

/-- Inserting a list of field names in order. -/
def CSVWriter.insertNames (w : CSVWriter) (names : List String) : CSVWriter :=
  names.foldl CSVWriter.insertName w

/-- Number of value insertions in a sequence of interactions. -/
def countValues : List Op → Nat
  | [] => 0
  | Op.val _ :: ops => countValues ops + 1
  | Op.name _ :: ops => countValues ops
  | Op.close :: ops => countValues ops

/-- Closed form of the header text: each name followed by a comma, in
order. -/
def headerLine : List String → String
  | [] => ""
  | n :: ns => n ++ "," ++ headerLine ns

/-- The documented usage pattern from the source comment (lines 52-63):
two field names, a close, then two cycles of two values and a close. -/
def exampleScenario : CSVWriter :=
  CSVWriter.run CSVWriter.new
    [Op.name "Bandwidth", Op.name "Latency", Op.close,
     Op.val "1.5", Op.val "15", Op.close,
     Op.val "2.5", Op.val "25", Op.close]

end DRAMSim

deriving instance DecidableEq for Except

namespace DRAMSim

/-- The header loop of finalize produces the closed-form header text. -/
theorem foldl_headerLine (names : List String) (out : String) :
    names.foldl (fun acc n => acc ++ n ++ ",") out = out ++ headerLine names := by
  induction names generalizing out with
  | nil => simp [headerLine]
  | cons n ns ih =>
    show List.foldl _ (out ++ n ++ ",") ns = _
    rw [ih]
    simp [headerLine, String.append_assoc]

/-- Inserting names into a writer that has not finalized appends them. -/
theorem insertNames_not_finalized (names : List String) (w : CSVWriter)
    (h : w.finalized = false) :
    w.insertNames names = { w with fieldNames := w.fieldNames ++ names } := by
  induction names generalizing w with
  | nil => simp [CSVWriter.insertNames]
  | cons n ns ih =>
    show CSVWriter.insertNames (w.insertName n) ns = _
    rw [show w.insertName n = { w with fieldNames := w.fieldNames ++ [n] } by
      simp [CSVWriter.insertName, h]]
    rw [ih _ (by simp [h])]
    simp

/-- After the header is committed, every single interaction keeps the
finalized flag set and leaves the field-name list unchanged. -/
theorem step_after_header (w : CSVWriter) (op : Op) (h : w.finalized = true) :
    (w.step op).finalized = true ∧ (w.step op).fieldNames = w.fieldNames := by
  cases op <;>
    simp [CSVWriter.step, CSVWriter.insertName, CSVWriter.insertValue, CSVWriter.finalize, h]

/-- After the header is committed, every interaction sequence keeps the
finalized flag set and leaves the field-name list unchanged. -/
theorem run_after_header (ops : List Op) (w : CSVWriter) (h : w.finalized = true) :
    (w.run ops).finalized = true ∧ (w.run ops).fieldNames = w.fieldNames := by
  induction ops generalizing w with
  | nil => exact ⟨h, rfl⟩
  | cons op ops ih =>
    have hs := step_after_header w op h
    have hr := ih (w.step op) hs.1
    exact ⟨hr.1, hr.2.trans hs.2⟩

/-- Each interaction preserves the invariant that idx is zero while the
header is not committed. -/
theorem step_idx_inv (w : CSVWriter) (op : Op)
    (h : w.finalized = false → w.idx = 0) :
    (w.step op).finalized = false → (w.step op).idx = 0 := by
  cases hf : w.finalized with
  | false =>
    cases op <;>
      simp [CSVWriter.step, CSVWriter.insertName, CSVWriter.insertValue, CSVWriter.finalize,
        hf, h hf]
  | true =>
    cases op <;>
      simp [CSVWriter.step, CSVWriter.insertName, CSVWriter.insertValue, CSVWriter.finalize, hf]

/-- In every writer reachable from a fresh one, idx is zero while the
header is not committed. -/
theorem run_idx_inv (ops : List Op) :
    (CSVWriter.new.run ops).finalized = false → (CSVWriter.new.run ops).idx = 0 := by
  have key : ∀ (os : List Op) (w : CSVWriter), (w.finalized = false → w.idx = 0) →
      (w.run os).finalized = false → (w.run os).idx = 0 := by
    intro os
    induction os with
    | nil => intro w h; exact h
    | cons op os ih => intro w h; exact ih (w.step op) (step_idx_inv w op h)
  exact key ops CSVWriter.new (fun _ => rfl)

/-- In the emitting state, a close-free interaction sequence raises idx
by exactly the number of value insertions it contains. -/
theorem run_counts_values (ops : List Op) (w : CSVWriter)
    (h : w.finalized = true) (hc : Op.close ∉ ops) :
    (w.run ops).idx = w.idx + countValues ops := by
  induction ops generalizing w with
  | nil => simp [CSVWriter.run, countValues]
  | cons op ops ih =>
    have hc2 : Op.close ∉ ops := fun hm => hc (List.mem_cons_of_mem _ hm)
    cases op with
    | name s =>
      have hn : w.insertName s = w := by simp [CSVWriter.insertName, h]
      show (CSVWriter.run (w.insertName s) ops).idx = _
      rw [hn, ih w h hc2, countValues]
    | val s =>
      have hstep : (w.insertValue s).finalized = true := by
        simp [CSVWriter.insertValue, h]
      show (CSVWriter.run (w.insertValue s) ops).idx = _
      rw [ih _ hstep hc2]
      have hone : (w.insertValue s).idx = w.idx + 1 := by simp [CSVWriter.insertValue, h]
      rw [hone, countValues]
      omega
    | close => exact absurd (List.mem_cons_self _ _) hc

/-- A string no longer than cap - 1 characters passes through the
snprintf buffer untouched. -/
theorem cTruncate_of_short (s : String) (cap : Nat) (h : s.length ≤ cap - 1) :
    cTruncate s cap = s := by
  cases s with
  | mk data =>
    simp only [cTruncate, String.toList]
    rw [List.take_of_length_le]
    exact h

/-- C1: for every sequence of field-name insertions on a fresh writer
followed by the first close-row call, the text written to the sink is
exactly those names in insertion order, each followed by a comma (so with
a trailing comma), then a line terminator, and the writer moves to the
emitting state. -/
theorem header_of_insertNames (names : List String) :
    ((CSVWriter.new.insertNames names).finalize).output = headerLine names ++ "\n"
    ∧ ((CSVWriter.new.insertNames names).finalize).finalized = true := by
  rw [insertNames_not_finalized names CSVWriter.new rfl]
  refine ⟨?_, rfl⟩
  show (List.foldl _ "" (([] : List String) ++ names)) ++ "\n" = _
  rw [List.nil_append, foldl_headerLine]
  simp

/-- C2 counterexample: with one committed field name and two inserted
values, the counter differs from the field count and yet the close-row
call emits no diagnostic warning, because the source only warns when
idx < fieldNames.size(). -/
theorem extra_values_no_warning :
    (((CSVWriter.new.insertName "A").finalize.insertValue "1").insertValue "2").finalized = true
    ∧ (((CSVWriter.new.insertName "A").finalize.insertValue "1").insertValue "2").idx
        ≠ (((CSVWriter.new.insertName "A").finalize.insertValue "1").insertValue "2").fieldNames.length
    ∧ (((CSVWriter.new.insertName "A").finalize.insertValue "1").insertValue "2").finalize.diag
        = (((CSVWriter.new.insertName "A").finalize.insertValue "1").insertValue "2").diag := by
  decide

/-- C2 amended: after the header is committed, a close-row call emits a
diagnostic warning exactly when the per-row value counter is strictly
below the field count; in every case it leaves the row content written
to the sink untouched apart from a final line terminator, keeps the
field names, resets the counter and stays in the emitting state. -/
theorem finalize_after_header (w : CSVWriter) (h : w.finalized = true) :
    (w.idx < w.fieldNames.length →
      w.finalize.diag = w.diag ++ [CSVWriter.mismatchMsg w.idx w.fieldNames.length])
    ∧ (w.fieldNames.length ≤ w.idx → w.finalize.diag = w.diag)
    ∧ w.finalize.output = w.output ++ "\n"
    ∧ w.finalize.fieldNames = w.fieldNames
    ∧ w.finalize.idx = 0
    ∧ w.finalize.finalized = true := by
  have hne : ¬ w.finalized = false := by simp [h]
  unfold CSVWriter.finalize
  rw [if_neg hne]
  refine ⟨fun hlt => ?_, fun hle => ?_, rfl, rfl, rfl, h⟩
  · exact if_pos hlt
  · exact if_neg (by omega)

/-- Witness for the amended C2 theorem at a concrete emitting writer. -/
theorem finalize_after_header_witness :
    CSVWriter.new.finalize.finalized = true
    ∧ CSVWriter.new.finalize.finalize.output = CSVWriter.new.finalize.output ++ "\n" :=
  ⟨by decide, (finalize_after_header CSVWriter.new.finalize (by decide)).2.2.1⟩

/-- C3: in the documented scenario (names Bandwidth and Latency, close,
values 1.5 and 15, close, values 2.5 and 25, close) the sink receives
exactly three lines: the header line, then 1.5,15, then 2.5,25, each
value list with a trailing comma; no diagnostic fires. -/
theorem example_scenario_output :
    exampleScenario.output
      = "Bandwidth,Latency," ++ "\n" ++ "1.5,15," ++ "\n" ++ "2.5,25," ++ "\n"
    ∧ exampleScenario.diag = [] := by
  decide

/-- C4: each indexed-name builder fails fatally (error report and
process termination) precisely when the base length plus 4 characters of
overhead per requested index exceeds MAX_TMP_STR = 64, and otherwise
returns a string. -/
theorem indexStr_capacity_check (base : String) (i j k : Nat) :
    ((MAX_TMP_STR < base.length + SINGLE_INDEX_LEN
        ∧ indexStr1 base i = Except.error tooLongMsg)
      ∨ (base.length + SINGLE_INDEX_LEN ≤ MAX_TMP_STR
        ∧ ∃ s, indexStr1 base i = Except.ok s))
    ∧ ((MAX_TMP_STR < base.length + 2 * SINGLE_INDEX_LEN
        ∧ indexStr2 base i j = Except.error tooLongMsg)
      ∨ (base.length + 2 * SINGLE_INDEX_LEN ≤ MAX_TMP_STR
        ∧ ∃ s, indexStr2 base i j = Except.ok s))
    ∧ ((MAX_TMP_STR < base.length + 3 * SINGLE_INDEX_LEN
        ∧ indexStr3 base i j k = Except.error tooLongMsg)
      ∨ (base.length + 3 * SINGLE_INDEX_LEN ≤ MAX_TMP_STR
        ∧ ∃ s, indexStr3 base i j k = Except.ok s)) := by
  refine ⟨?_, ?_, ?_⟩
  · by_cases hb : MAX_TMP_STR < base.length + SINGLE_INDEX_LEN
    · exact Or.inl ⟨hb, by simp [indexStr1, hb]⟩
    · exact Or.inr ⟨by omega,
        ⟨cTruncate (base ++ "[" ++ toString i ++ "]") MAX_TMP_STR,
          by simp [indexStr1, hb]⟩⟩
  · by_cases hb : MAX_TMP_STR < base.length + 2 * SINGLE_INDEX_LEN
    · exact Or.inl ⟨hb, by simp [indexStr2, hb]⟩
    · exact Or.inr ⟨by omega,
        ⟨cTruncate (base ++ "[" ++ toString i ++ "]" ++ "[" ++ toString j ++ "]") MAX_TMP_STR,
          by simp [indexStr2, hb]⟩⟩
  · by_cases hb : MAX_TMP_STR < base.length + 3 * SINGLE_INDEX_LEN
    · exact Or.inl ⟨hb, by simp [indexStr3, hb]⟩
    · exact Or.inr ⟨by omega,
        ⟨cTruncate (base ++ "[" ++ toString i ++ "]" ++ "[" ++ toString j ++ "]"
            ++ "[" ++ toString k ++ "]") MAX_TMP_STR,
          by simp [indexStr3, hb]⟩⟩

/-- C5 counterexample: a 60-character base with index 100 passes the
capacity check (60 + 4 = 64) yet the snprintf buffer truncates the
formatted name, so the result is not base[100]. -/
theorem indexStr_truncates_long_base :
    ("aaaaaaaaaaaaaaaaaaaaaaaaaaaaaaaaaaaaaaaaaaaaaaaaaaaaaaaaaaaa".length
        + SINGLE_INDEX_LEN ≤ MAX_TMP_STR)
    ∧ indexStr1 "aaaaaaaaaaaaaaaaaaaaaaaaaaaaaaaaaaaaaaaaaaaaaaaaaaaaaaaaaaaa" 100
        ≠ Except.ok
          ("aaaaaaaaaaaaaaaaaaaaaaaaaaaaaaaaaaaaaaaaaaaaaaaaaaaaaaaaaaaa" ++ "[100]") := by
  decide

/-- C5 amended: whenever the capacity check passes and the fully
formatted name is shorter than MAX_TMP_STR, the builder returns exactly
base[i], base[i][j] or base[i][j][k] with unsigned decimal indices; in
particular the three documented examples hold. -/
theorem indexStr_format (base : String) (i j k : Nat) :
    (base.length + SINGLE_INDEX_LEN ≤ MAX_TMP_STR →
      (base ++ "[" ++ toString i ++ "]").length < MAX_TMP_STR →
      indexStr1 base i = Except.ok (base ++ "[" ++ toString i ++ "]"))
    ∧ (base.length + 2 * SINGLE_INDEX_LEN ≤ MAX_TMP_STR →
      (base ++ "[" ++ toString i ++ "]" ++ "[" ++ toString j ++ "]").length < MAX_TMP_STR →
      indexStr2 base i j
        = Except.ok (base ++ "[" ++ toString i ++ "]" ++ "[" ++ toString j ++ "]"))
    ∧ (base.length + 3 * SINGLE_INDEX_LEN ≤ MAX_TMP_STR →
      (base ++ "[" ++ toString i ++ "]" ++ "[" ++ toString j ++ "]"
        ++ "[" ++ toString k ++ "]").length < MAX_TMP_STR →
      indexStr3 base i j k
        = Except.ok (base ++ "[" ++ toString i ++ "]" ++ "[" ++ toString j ++ "]"
          ++ "[" ++ toString k ++ "]"))
    ∧ indexStr1 "Bandwidth" 3 = Except.ok "Bandwidth[3]"
    ∧ indexStr2 "Latency" 0 2 = Except.ok "Latency[0][2]"
    ∧ indexStr3 "X" 1 2 3 = Except.ok "X[1][2][3]" := by
  refine ⟨?_, ?_, ?_, by decide, by decide, by decide⟩
  · intro h1 h2
    rw [indexStr1, if_neg (by omega)]
    rw [cTruncate_of_short _ _ (by omega)]
  · intro h1 h2
    rw [indexStr2, if_neg (by omega)]
    rw [cTruncate_of_short _ _ (by omega)]
  · intro h1 h2
    rw [indexStr3, if_neg (by omega)]
    rw [cTruncate_of_short _ _ (by omega)]

/-- Witness for the amended C5 theorem at the first documented example. -/
theorem indexStr_format_witness :
    ("Bandwidth".length + SINGLE_INDEX_LEN ≤ MAX_TMP_STR)
    ∧ ("Bandwidth" ++ "[" ++ toString 3 ++ "]").length < MAX_TMP_STR
    ∧ indexStr1 "Bandwidth" 3 = Except.ok ("Bandwidth" ++ "[" ++ toString 3 ++ "]") :=
  ⟨by decide, by decide, (indexStr_format "Bandwidth" 3 0 0).1 (by decide) (by decide)⟩

/-- C6: a value insertion made while the header is not yet committed
changes nothing at all: the returned writer is the original one, so the
sink, the counter and every other component are untouched. -/
theorem insertValue_before_header (w : CSVWriter) (v : String)
    (h : w.finalized = false) :
    w.insertValue v = w := by
  simp [CSVWriter.insertValue, h]

/-- Witness for C6 on a fresh writer. -/
theorem insertValue_before_header_witness :
    CSVWriter.new.finalized = false
    ∧ CSVWriter.new.insertValue "1.5" = CSVWriter.new :=
  ⟨rfl, insertValue_before_header CSVWriter.new "1.5" rfl⟩

/-- C7: a field-name insertion after the header is committed returns the
writer unchanged, and consequently the field-name list stays fixed under
every further interaction sequence. -/
theorem insertName_after_header :
    (∀ (w : CSVWriter) (name : String), w.finalized = true → w.insertName name = w)
    ∧ (∀ (w : CSVWriter) (ops : List Op), w.finalized = true →
        (w.run ops).fieldNames = w.fieldNames) := by
  constructor
  · intro w name h
    simp [CSVWriter.insertName, h]
  · intro w ops h
    exact (run_after_header ops w h).2

/-- Witness for C7 on a concrete emitting writer. -/
theorem insertName_after_header_witness :
    CSVWriter.new.finalize.finalized = true
    ∧ CSVWriter.new.finalize.insertName "X" = CSVWriter.new.finalize
    ∧ (CSVWriter.new.finalize.run [Op.val "7", Op.close]).fieldNames
        = CSVWriter.new.finalize.fieldNames :=
  ⟨by decide, insertName_after_header.1 CSVWriter.new.finalize "X" (by decide),
    insertName_after_header.2 CSVWriter.new.finalize [Op.val "7", Op.close] (by decide)⟩

/-- C8: the writer has the two states of its finalized flag: a fresh
writer is collecting, any close-row call puts it in the emitting state,
and no interaction sequence ever brings an emitting writer back. -/
theorem finalized_irreversible :
    CSVWriter.new.finalized = false
    ∧ (∀ w : CSVWriter, w.finalize.finalized = true)
    ∧ (∀ (w : CSVWriter) (ops : List Op), w.finalized = true →
        (w.run ops).finalized = true) := by
  refine ⟨rfl, ?_, ?_⟩
  · intro w
    cases hf : w.finalized <;> simp [CSVWriter.finalize, hf]
  · intro w ops h
    exact (run_after_header ops w h).1

/-- Witness for C8 on a concrete emitting writer. -/
theorem finalized_irreversible_witness :
    CSVWriter.new.finalize.finalized = true
    ∧ (CSVWriter.new.finalize.run [Op.name "A", Op.val "1", Op.close]).finalized = true :=
  ⟨by decide,
    finalized_irreversible.2.2 CSVWriter.new.finalize
      [Op.name "A", Op.val "1", Op.close] (by decide)⟩

/-- C9: the per-row value counter starts at zero, is zero right after
every close-row call on a reachable writer, each value insertion in the
emitting state raises it by one, and over any close-free interaction
sequence it grows by exactly the number of value insertions. -/
theorem idx_counter_invariant :
    CSVWriter.new.idx = 0
    ∧ (∀ ops : List Op, ((CSVWriter.new.run ops).finalize).idx = 0)
    ∧ (∀ (w : CSVWriter) (v : String), w.finalized = true →
        (w.insertValue v).idx = w.idx + 1)
    ∧ (∀ (w : CSVWriter) (ops : List Op), w.finalized = true → Op.close ∉ ops →
        (w.run ops).idx = w.idx + countValues ops) := by
  refine ⟨rfl, ?_, ?_, ?_⟩
  · intro ops
    cases hf : (CSVWriter.new.run ops).finalized with
    | false =>
      have h0 := run_idx_inv ops hf
      simp [CSVWriter.finalize, hf, h0]
    | true =>
      simp [CSVWriter.finalize, hf]
  · intro w v h
    simp [CSVWriter.insertValue, h]
  · intro w ops h hc
    exact run_counts_values ops w h hc

/-- Witness for C9: two value insertions in the emitting state. -/
theorem idx_counter_invariant_witness :
    CSVWriter.new.finalize.finalized = true
    ∧ Op.close ∉ [Op.val "1", Op.val "2"]
    ∧ (CSVWriter.new.finalize.run [Op.val "1", Op.val "2"]).idx
        = CSVWriter.new.finalize.idx + countValues [Op.val "1", Op.val "2"] :=
  ⟨by decide, by decide,
    idx_counter_invariant.2.2.2 CSVWriter.new.finalize [Op.val "1", Op.val "2"]
      (by decide) (by decide)⟩

/-- C10: a close-row call on a fresh writer with no captured names still
commits the header: it writes only a line terminator to the sink,
flushes, and moves the writer to the emitting state. -/
theorem finalize_empty_header :
    CSVWriter.new.finalize.output = "\n"
    ∧ CSVWriter.new.finalize.finalized = true
    ∧ CSVWriter.new.finalize.fieldNames = []
    ∧ CSVWriter.new.flushCount < CSVWriter.new.finalize.flushCount := by
  decide

end DRAMSim
